import Mathlib

/-!
Verification of the leg-pairing and classification engine of `cryptotax`
(`src/reader.rs`), shallowly embedded in Lean 4.

Embedding conventions:
* `rust_decimal::Decimal` values are modelled as exact rationals (`Rat`);
  the amounts involved are small and `Decimal` arithmetic on them is exact.
* `Currency` is a `String`, as in `transaction.rs` (the tests use plain
  string literals such as `"DOGE"` for it).
* Rust's `str::contains` (contiguous substring test) is modelled by
  `strContains`, and date strings are compared lexicographically on their
  character lists (`chronoLe`), the spec treating dates as opaque keys.
* The `async` wrappers and file I/O are dropped: the functions take the
  already-parsed list of rows.  `io::Result` is modelled by `Except String`.
-/

/-- Currency is a plain string code, as in the source (`"DOGE"`, `"SEK"`, ...). -/
abbrev Currency := String

/-- Rust `str::contains`: `pat` occurs as a contiguous substring of `s`. -/
def strContains (s pat : String) : Bool :=
  s.data.tails.any fun suffix => pat.data.isPrefixOf suffix

/-- Lexicographic comparison of character lists, used to compare the opaque
`YYYY-MM-DD HH:MM:SS` date strings chronologically. -/
def charListLe : List Char → List Char → Bool
  | [], _ => true
  | _ :: _, [] => false
  | a :: as, b :: bs =>
      if a.toNat < b.toNat then true
      else if b.toNat < a.toNat then false
      else charListLe as bs

/-- Chronological (lexicographic) order on date strings. -/
def chronoLe (s t : String) : Bool :=
  charListLe s.data t.data

/-- The `Type` enum of `reader.rs` (lines 39-48); `Type` is reserved in Lean. -/
inductive RowType
  | Exchange
  | Transfer
  | Cashback
  | CardPayment
  | Topup
deriving DecidableEq

/-- The `State` enum of `reader.rs` (lines 50-54): only `Completed` exists. -/
inductive State
  | Completed
deriving DecidableEq

/-- `TransactionType` from `transaction.rs`.  Modelled from the spec: that file
is not under `src/`; the spec (§3) gives `type: Buy, Sell`. -/
inductive TransactionType
  | Buy
  | Sell
deriving DecidableEq

/-- The `Row` struct of `reader.rs` (lines 9-37). -/
structure Row where
  type : RowType
  started_date : String
  completed_date : Option String
  description : String
  amount : Rat
  fee : Rat
  currency : Currency
  original_amount : Rat
  original_currency : Currency
  settled_amount : Option Rat
  settled_currency : Option Currency
  state : State
  balance : Option Rat
deriving DecidableEq

/-- The `Transaction` struct from `transaction.rs`.  Modelled from the spec
(§3) and the field names visible in the tests of `reader.rs`. -/
structure Transaction where
  type : TransactionType
  paid_currency : Currency
  paid_amount : Rat
  exchanged_currency : Currency
  exchanged_amount : Rat
  date : String
  is_vault : Bool
deriving DecidableEq

/-- Modelled from the spec: `Transaction::new()` lives in `transaction.rs`,
which is not under `src/`.  The spec (§7) says unmatched accumulator fields
"simply stay at their defaults"; the defaults are modelled as the natural
empty/zero values (empty strings, zero amounts, `is_vault = false`, and an
arbitrary default direction `Buy`). -/
def Transaction.new : Transaction :=
  { type := TransactionType.Buy
    paid_currency := ""
    paid_amount := 0
    exchanged_currency := ""
    exchanged_amount := 0
    date := ""
    is_vault := false }

/-- Condition of the first `if` of `Row::to_transaction` (line 130):
currency equals the target and the description contains "Exchanged from". -/
def rule1 (self : Row) (currency : Currency) : Bool :=
  self.currency == currency && strContains self.description "Exchanged from"

/-- Condition of the second `if` (line 138): currency equals the target and
the description contains "Exchanged to". -/
def rule2 (self : Row) (currency : Currency) : Bool :=
  self.currency == currency && strContains self.description "Exchanged to"

/-- Condition of the third `if` (line 146): the description contains
"Exchanged from" and contains the target currency code. -/
def rule3 (self : Row) (currency : Currency) : Bool :=
  strContains self.description "Exchanged from" && strContains self.description currency

/-- Condition of the fourth `if` (line 153): the description contains
"Exchanged to" and contains the target currency code. -/
def rule4 (self : Row) (currency : Currency) : Bool :=
  strContains self.description "Exchanged to" && strContains self.description currency

/-- `Row::to_transaction` (`reader.rs` lines 126-163): four sequential,
independent `if` blocks mutating the accumulator, then the Vault flag. -/
def Row.to_transaction (self : Row) (txn : Option Transaction) (currency : Currency) :
    Transaction :=
  let txn := txn.getD Transaction.new
  let txn := if rule1 self currency then
    { txn with type := TransactionType.Buy, paid_amount := self.amount + self.fee,
               paid_currency := currency, date := self.started_date } else txn
  let txn := if rule2 self currency then
    { txn with type := TransactionType.Sell, paid_amount := self.amount + self.fee,
               paid_currency := currency, date := self.started_date } else txn
  let txn := if rule3 self currency then
    { txn with type := TransactionType.Sell, exchanged_amount := self.amount + self.fee,
               exchanged_currency := self.currency } else txn
  let txn := if rule4 self currency then
    { txn with type := TransactionType.Buy, exchanged_amount := self.amount + self.fee,
               exchanged_currency := self.currency } else txn
  if strContains self.description "Vault" then { txn with is_vault := true } else txn

/-- One step of the fold in `to_transactions` (`reader.rs` lines 107-116). -/
def toTransactionsStep (currency : Currency) :
    List Transaction × Option Row → Row → List Transaction × Option Row :=
  fun (acc, prev) row =>
    match prev with
    | none => (acc, some row)
    | some prev =>
        (acc ++ [row.to_transaction (some (prev.to_transaction none currency)) currency],
         none)

/-- The list of `Transaction`s built by `to_transactions` before wrapping in
`Ok`: fold over the reversed row list, discarding the leftover pending row. -/
def toTransactionsCore (rows : List Row) (currency : Currency) : List Transaction :=
  (rows.reverse.foldl (toTransactionsStep currency) ([], none)).1

/-- `to_transactions` (`reader.rs` lines 104-119): always returns `Ok`. -/
def to_transactions (rows : List Row) (currency : Currency) :
    Except String (List Transaction) :=
  Except.ok (toTransactionsCore rows currency)

/-- `read_exchanges` (`reader.rs` lines 87-93), on the parsed row list. -/
def read_exchanges (rows : List Row) : List Row :=
  rows.filter fun t => t.type == RowType.Exchange

/-- `read_exchanges_in_currency` (`reader.rs` lines 95-102), on the parsed
row list: the Exchange filter followed by the currency/description filter. -/
def read_exchanges_in_currency (rows : List Row) (currency : Currency) : List Row :=
  (rows.filter fun t => t.type == RowType.Exchange).filter
    fun t => t.currency == currency || strContains t.description currency

/-- The transaction built from one adjacent pair: the older (pending) leg is
classified first into a fresh accumulator, the newer leg second. -/
def pairTxn (older newer : Row) (currency : Currency) : Transaction :=
  newer.to_transaction (some (older.to_transaction none currency)) currency

/-- Non-overlapping adjacent pairs of a list, in order. -/
def chunkPairs {α : Type} : List α → List (α × α)
  | a :: b :: rest => (a, b) :: chunkPairs rest
  | _ => []

/-- The pending row left over after the fold: `some` of the last element
when the length is odd, `none` when it is even. -/
def leftover {α : Type} : List α → Option α
  | [] => none
  | [a] => some a
  | _ :: _ :: rest => leftover rest

/-- Two-step list induction, matching the recursion of `chunkPairs`. -/
def twoStepInd {α : Type} {motive : List α → Prop} (h0 : motive [])
    (h1 : ∀ a, motive [a])
    (h2 : ∀ a b l, motive l → motive (a :: b :: l)) : ∀ l, motive l
  | [] => h0
  | [a] => h1 a
  | a :: b :: l => h2 a b l (twoStepInd h0 h1 h2 l)

/-- Derived from the spec's words (§4.3, "apply the first matching rule"):
a classifier that applies only the earliest rule whose condition holds,
then the independent Vault flag.  Used to compare the spec's reading of the
rule table against the source's `Row::to_transaction`. -/
def to_transaction_firstMatch (self : Row) (txn : Option Transaction)
    (currency : Currency) : Transaction :=
  let txn := txn.getD Transaction.new
  let txn :=
    if rule1 self currency then
      { txn with type := TransactionType.Buy, paid_amount := self.amount + self.fee,
                 paid_currency := currency, date := self.started_date }
    else if rule2 self currency then
      { txn with type := TransactionType.Sell, paid_amount := self.amount + self.fee,
                 paid_currency := currency, date := self.started_date }
    else if rule3 self currency then
      { txn with type := TransactionType.Sell, exchanged_amount := self.amount + self.fee,
                 exchanged_currency := self.currency }
    else if rule4 self currency then
      { txn with type := TransactionType.Buy, exchanged_amount := self.amount + self.fee,
                 exchanged_currency := self.currency }
    else txn
  if strContains self.description "Vault" then { txn with is_vault := true } else txn

/-- A leg satisfying rule 1 and rule 3 simultaneously: its own currency is
the target and its description names the target inside "Exchanged from". -/
def c2row : Row :=
  { type := RowType.Exchange
    started_date := "2022-01-01 00:00:00"
    completed_date := none
    description := "Exchanged from BCH"
    amount := 1
    fee := 0
    currency := "BCH"
    original_amount := 1
    original_currency := "BCH"
    settled_amount := none
    settled_currency := none
    state := State.Completed
    balance := none }

/-- An Exchange leg matching none of the four rules and without "Vault". -/
def jrow : Row :=
  { type := RowType.Exchange
    started_date := "2021-01-01 00:00:00"
    completed_date := none
    description := "x"
    amount := 1
    fee := 0
    currency := "SEK"
    original_amount := 1
    original_currency := "SEK"
    settled_amount := none
    settled_currency := none
    state := State.Completed
    balance := none }

/-- An Exchange leg matching none of the four rules but whose description
contains "Vault": only the `is_vault` write may fire. -/
def vrow : Row :=
  { type := RowType.Exchange
    started_date := "2021-03-01 00:00:00"
    completed_date := none
    description := "x Vault"
    amount := 1
    fee := 0
    currency := "SEK"
    original_amount := 1
    original_currency := "SEK"
    settled_amount := none
    settled_currency := none
    state := State.Completed
    balance := none }

/-- The older leg of the C4 counterexample pair: its own currency is the
target "BCH" and its description says "Exchanged from SEK", so it fires
rule 1 (and only rule 1). -/
def rOld : Row :=
  { type := RowType.Exchange
    started_date := "2021-01-01 00:00:00"
    completed_date := none
    description := "Exchanged from SEK"
    amount := 2
    fee := 0
    currency := "BCH"
    original_amount := 2
    original_currency := "BCH"
    settled_amount := none
    settled_currency := none
    state := State.Completed
    balance := none }

/-- The newer leg of the C4 counterexample pair: same shape as `rOld` but
with a later date; it also fires rule 1, so its `date` write lands last. -/
def rNew : Row :=
  { type := RowType.Exchange
    started_date := "2022-02-02 00:00:00"
    completed_date := none
    description := "Exchanged from SEK"
    amount := 1
    fee := 0
    currency := "BCH"
    original_amount := 1
    original_currency := "BCH"
    settled_amount := none
    settled_currency := none
    state := State.Completed
    balance := none }

/-- First junk leg of the C5 counterexample: newest date, no rule fires. -/
def j1 : Row := { jrow with started_date := "2022-02-02 00:00:00" }

/-- Second junk leg of the C5 counterexample. -/
def j2 : Row := { jrow with started_date := "2022-01-01 00:00:00" }

/-- The one rule-firing leg of the C5 counterexample, dated between `jrow`
and `j2`. -/
def m3 : Row := { rOld with started_date := "2021-06-01 00:00:00" }

/-- A raw CSV record: the thirteen column values of one line, as text, before
deserialization.  Modelled from the spec (§6): parsing the tabular source
file is an external collaborator (the `csv`/`serde` crates). -/
structure RawRecord where
  type : String
  started_date : String
  completed_date : String
  description : String
  amount : String
  fee : String
  currency : String
  original_amount : String
  original_currency : String
  settled_amount : String
  settled_currency : String
  state : String
  balance : String
deriving DecidableEq

/-- Decimal digit test on a character (code points 48-57). -/
def isDigitChar (c : Char) : Bool :=
  48 ≤ c.toNat && c.toNat ≤ 57

/-- Value of a non-empty all-digit character list, else `none`. -/
def digitsToNat (cs : List Char) : Option Nat :=
  if cs.isEmpty then none
  else if cs.all isDigitChar then
    some (cs.foldl (fun n c => 10 * n + (c.toNat - 48)) 0)
  else none

/-- Split a character list at the first `'.'`, if any. -/
def splitFrac : List Char → List Char × Option (List Char)
  | [] => ([], none)
  | c :: rest =>
      if c = '.' then ([], some rest)
      else
        let (ip, fp) := splitFrac rest
        (c :: ip, fp)

/-- Modelled from the spec: the numeric (`Decimal`) field parser of the
external `serde`/`rust_decimal` deserializer, which is not part of `src/`.
Accepts an optional leading minus, a digit run, and at most one decimal
point; any other shape (empty, letters, two dots) is non-numeric and
fails, per the spec (§6, "non-numeric amount ... fails validation"). -/
def parseDecimal (s : String) : Option Rat :=
  let (sign, body) : Rat × List Char :=
    match s.data with
    | '-' :: rest => (-1, rest)
    | l => (1, l)
  match splitFrac body with
  | (ip, none) => (digitsToNat ip).map fun n => sign * (n : Rat)
  | (ip, some fp) =>
      (digitsToNat ip).bind fun i =>
        (digitsToNat fp).map fun f =>
          sign * ((i : Rat) + (f : Rat) / ((10 : Rat) ^ fp.length))

/-- Modelled from the spec: `serde` enum deserialization for `Type`,
accepting exactly the five renamed variant strings of `reader.rs`. -/
def parseRowType (s : String) : Option RowType :=
  if s == "Exchange" then some RowType.Exchange
  else if s == "Transfer" then some RowType.Transfer
  else if s == "Cashback" then some RowType.Cashback
  else if s == "Card Payment" then some RowType.CardPayment
  else if s == "Topup" then some RowType.Topup
  else none

/-- Modelled from the spec: `serde` enum deserialization for `State`: only
the string "Completed" is valid (§3, §6). -/
def parseState (s : String) : Option State :=
  if s == "Completed" then some State.Completed else none

/-- Modelled from the spec: an optional text column — empty means absent. -/
def parseOptString (s : String) : Option String :=
  if s == "" then none else some s

/-- Modelled from the spec: an optional `Decimal` column — empty means
absent, otherwise the text must be numeric. -/
def parseOptDecimal (s : String) : Option (Option Rat) :=
  if s == "" then some none else (parseDecimal s).map some

/-- Modelled from the spec: the derived `serde` row deserializer for `Row`
(not in `src/`, which only declares the derive): a record yields a `Row`
exactly when every typed field parses, in particular the `State` enum. -/
def parseRow (rec : RawRecord) : Option Row :=
  (parseRowType rec.type).bind fun ty =>
  (parseDecimal rec.amount).bind fun amount =>
  (parseDecimal rec.fee).bind fun fee =>
  (parseDecimal rec.original_amount).bind fun original_amount =>
  (parseOptDecimal rec.settled_amount).bind fun settled_amount =>
  (parseState rec.state).bind fun st =>
  (parseOptDecimal rec.balance).map fun balance =>
  { type := ty
    started_date := rec.started_date
    completed_date := parseOptString rec.completed_date
    description := rec.description
    amount := amount
    fee := fee
    currency := rec.currency
    original_amount := original_amount
    original_currency := rec.original_currency
    settled_amount := settled_amount
    settled_currency := parseOptString rec.settled_currency
    state := st
    balance := balance }

/-- `deserialize_from_path` (`reader.rs` lines 67-85) past the I/O boundary:
each record yields at most one `Row`; failed records are skipped via
`filter_map(|record| record.ok())` with no error surfaced. -/
def deserialize_from_path (records : List RawRecord) : List Row :=
  records.filterMap parseRow

/-- A fully valid raw record (second fixture row of the source's tests). -/
def goodRec : RawRecord :=
  { type := "Exchange"
    started_date := "2022-03-01 16:21:49"
    completed_date := "2022-03-01 16:21:49"
    description := "Exchanged from DOGE"
    amount := "50"
    fee := "0"
    currency := "EOS"
    original_amount := "50"
    original_currency := "EOS"
    settled_amount := ""
    settled_currency := ""
    state := "Completed"
    balance := "50" }

/-- The `Row` that `goodRec` deserializes to. -/
def goodRow : Row :=
  { type := RowType.Exchange
    started_date := "2022-03-01 16:21:49"
    completed_date := some "2022-03-01 16:21:49"
    description := "Exchanged from DOGE"
    amount := 50
    fee := 0
    currency := "EOS"
    original_amount := 50
    original_currency := "EOS"
    settled_amount := none
    settled_currency := none
    state := State.Completed
    balance := some 50 }

/-- `goodRec` with a non-Completed state: fails enum validation. -/
def badStateRec : RawRecord := { goodRec with state := "Pending" }

/-- `goodRec` with a non-numeric amount: fails schema validation. -/
def badAmountRec : RawRecord := { goodRec with amount := "abc" }

lemma chunkPairs_length {α : Type} : ∀ l : List α, (chunkPairs l).length = l.length / 2 := by
  refine twoStepInd ?_ ?_ ?_
  · simp [chunkPairs]
  · intro a; simp [chunkPairs]
  · intro a b l ih
    simp only [chunkPairs, List.length_cons, ih]
    omega

lemma foldl_chunk (currency : Currency) :
    ∀ (l : List Row) (acc : List Transaction),
      l.foldl (toTransactionsStep currency) (acc, none) =
        (acc ++ (chunkPairs l).map (fun p => pairTxn p.1 p.2 currency), leftover l) := by
  refine twoStepInd ?_ ?_ ?_
  · intro acc; simp [chunkPairs, leftover]
  · intro a acc; simp [chunkPairs, leftover, toTransactionsStep]
  · intro a b l ih acc
    have hstep : (a :: b :: l).foldl (toTransactionsStep currency) (acc, none) =
        l.foldl (toTransactionsStep currency)
          (acc ++ [pairTxn a b currency], none) := by
      simp [toTransactionsStep, pairTxn]
    rw [hstep, ih]
    simp [chunkPairs, leftover]

lemma toTransactionsCore_eq_chunkMap (rows : List Row) (currency : Currency) :
    toTransactionsCore rows currency =
      (chunkPairs rows.reverse).map fun p => pairTxn p.1 p.2 currency := by
  unfold toTransactionsCore
  rw [foldl_chunk currency rows.reverse []]
  simp

/-- C1: `to_transactions` emits exactly `⌊n/2⌋` transactions, one per
non-overlapping adjacent pair of the reversed input (whether or not any
classification rule matches the pair's legs); an odd trailing leg is
dropped, no transaction being emitted for it. -/
theorem c1_pair_count (rows : List Row) (currency : Currency) :
    to_transactions rows currency =
      Except.ok ((chunkPairs rows.reverse).map fun p => pairTxn p.1 p.2 currency) ∧
    (toTransactionsCore rows currency).length = rows.length / 2 := by
  constructor
  · unfold to_transactions
    rw [toTransactionsCore_eq_chunkMap]
  · rw [toTransactionsCore_eq_chunkMap]
    simp [chunkPairs_length]

/-- Per-field characterization of `Row::to_transaction`: all four rule blocks
run independently in order, so for each field the last matching rule's write
is the one retained, and fields no firing rule writes are left unchanged. -/
lemma to_transaction_char (r : Row) (t : Transaction) (c : Currency) :
    Row.to_transaction r (some t) c =
      { type := if rule4 r c then TransactionType.Buy
                else if rule3 r c then TransactionType.Sell
                else if rule2 r c then TransactionType.Sell
                else if rule1 r c then TransactionType.Buy else t.type,
        paid_currency := if rule1 r c || rule2 r c then c else t.paid_currency,
        paid_amount := if rule1 r c || rule2 r c then r.amount + r.fee else t.paid_amount,
        exchanged_currency := if rule3 r c || rule4 r c then r.currency
                              else t.exchanged_currency,
        exchanged_amount := if rule3 r c || rule4 r c then r.amount + r.fee
                            else t.exchanged_amount,
        date := if rule1 r c || rule2 r c then r.started_date else t.date,
        is_vault := t.is_vault || strContains r.description "Vault" } := by
  unfold Row.to_transaction
  cases h1 : rule1 r c <;> cases h2 : rule2 r c <;> cases h3 : rule3 r c <;>
    cases h4 : rule4 r c <;> cases h5 : strContains r.description "Vault" <;>
      simp [h1, h2, h3, h4, h5]

lemma to_transaction_none (r : Row) (c : Currency) :
    Row.to_transaction r none c = Row.to_transaction r (some Transaction.new) c := by
  unfold Row.to_transaction
  rfl

/-- C2 counterexample: `c2row` satisfies both rule 1 and rule 3 for target
"BCH"; the source applies both (final `type` is rule 3's `Sell` and the
exchanged fields are written), whereas applying only the earliest matching
rule would stop at rule 1 (`Buy`, exchanged fields untouched). -/
theorem c2_counterexample :
    (rule1 c2row "BCH" = true ∧ rule3 c2row "BCH" = true) ∧
    (Row.to_transaction c2row none "BCH").type = TransactionType.Sell ∧
    (to_transaction_firstMatch c2row none "BCH").type = TransactionType.Buy ∧
    Row.to_transaction c2row none "BCH" ≠ to_transaction_firstMatch c2row none "BCH" := by
  decide

/-- C2 amended: the classifier applies every matching rule in source order
(1, 2, 3, 4), not only the first; later matching rules overwrite earlier
writes on shared fields, so the final `type` is the last matching rule's,
while the non-overlapping writes of distinct matching rules all persist. -/
theorem c2_amended_all_rules_apply (r : Row) (t : Transaction) (c : Currency) :
    Row.to_transaction r (some t) c =
      { type := if rule4 r c then TransactionType.Buy
                else if rule3 r c then TransactionType.Sell
                else if rule2 r c then TransactionType.Sell
                else if rule1 r c then TransactionType.Buy else t.type,
        paid_currency := if rule1 r c || rule2 r c then c else t.paid_currency,
        paid_amount := if rule1 r c || rule2 r c then r.amount + r.fee else t.paid_amount,
        exchanged_currency := if rule3 r c || rule4 r c then r.currency
                              else t.exchanged_currency,
        exchanged_amount := if rule3 r c || rule4 r c then r.amount + r.fee
                            else t.exchanged_amount,
        date := if rule1 r c || rule2 r c then r.started_date else t.date,
        is_vault := t.is_vault || strContains r.description "Vault" } :=
  to_transaction_char r t c

/-- C3: whenever a leg fires rule 1 or rule 2 it writes `paid_amount`, and
whenever it fires rule 3 or rule 4 it writes `exchanged_amount`, in both
cases with exactly the leg's `amount + fee` in exact (rational) arithmetic,
the sign of the sum being preserved by the equality. -/
theorem c3_fee_inclusive_amounts (r : Row) (ot : Option Transaction) (c : Currency) :
    ((rule1 r c || rule2 r c) = true →
      (Row.to_transaction r ot c).paid_amount = r.amount + r.fee) ∧
    ((rule3 r c || rule4 r c) = true →
      (Row.to_transaction r ot c).exchanged_amount = r.amount + r.fee) := by
  have hsome : ∀ t : Transaction,
      ((rule1 r c || rule2 r c) = true →
        (Row.to_transaction r (some t) c).paid_amount = r.amount + r.fee) ∧
      ((rule3 r c || rule4 r c) = true →
        (Row.to_transaction r (some t) c).exchanged_amount = r.amount + r.fee) := by
    intro t
    rw [to_transaction_char]
    constructor <;> intro h <;> simp [h]
  cases ot with
  | none => rw [to_transaction_none]; exact hsome Transaction.new
  | some t => exact hsome t

/-- C3 witness: on the concrete leg `c2row` (which fires rules 1 and 3 for
target "BCH") both conclusions hold, with `paid_amount` and
`exchanged_amount` equal to `amount + fee = 1`. -/
theorem c3_witness :
    (rule1 c2row "BCH" || rule2 c2row "BCH") = true ∧
    (Row.to_transaction c2row none "BCH").paid_amount = c2row.amount + c2row.fee ∧
    (rule3 c2row "BCH" || rule4 c2row "BCH") = true ∧
    (Row.to_transaction c2row none "BCH").exchanged_amount = c2row.amount + c2row.fee :=
  ⟨by decide, (c3_fee_inclusive_amounts c2row none "BCH").1 (by decide), by decide,
    (c3_fee_inclusive_amounts c2row none "BCH").2 (by decide)⟩

/-- C6: the pair's `is_vault` flag is true exactly when at least one of the
two legs' descriptions contains the substring "Vault". -/
theorem c6_vault_flag (older newer : Row) (c : Currency) :
    (pairTxn older newer c).is_vault =
      (strContains older.description "Vault" || strContains newer.description "Vault") := by
  unfold pairTxn
  rw [to_transaction_none, to_transaction_char, to_transaction_char]
  simp [Transaction.new, Bool.or_assoc]

/-- C10: frame property of the classifier: rules 1/2 alone never touch the
exchanged fields, rules 3/4 alone never touch the paid fields or the date;
`is_vault` is exactly the accumulator's flag or-ed with this leg's "Vault"
test (so it persists once true and stays false for a leg without "Vault");
`type` is exactly the last matching rule's direction and is untouched — even
by a Vault-only leg — when no rule fires; a leg firing no rule changes at
most `is_vault`, and one without "Vault" changes nothing; and at the pair
level the newer (second-classified) leg's writes overwrite the older leg's
for the date and paid fields (rules 1/2), the exchanged fields (rules 3/4),
and the type (any rule). -/
theorem c10_frame_conditions (r : Row) (t : Transaction) (c : Currency) :
    ((rule3 r c || rule4 r c) = false →
      (Row.to_transaction r (some t) c).exchanged_amount = t.exchanged_amount ∧
      (Row.to_transaction r (some t) c).exchanged_currency = t.exchanged_currency) ∧
    ((rule1 r c || rule2 r c) = false →
      (Row.to_transaction r (some t) c).paid_amount = t.paid_amount ∧
      (Row.to_transaction r (some t) c).paid_currency = t.paid_currency ∧
      (Row.to_transaction r (some t) c).date = t.date) ∧
    ((Row.to_transaction r (some t) c).is_vault =
      (t.is_vault || strContains r.description "Vault")) ∧
    ((Row.to_transaction r (some t) c).type =
      (if rule4 r c then TransactionType.Buy
       else if rule3 r c then TransactionType.Sell
       else if rule2 r c then TransactionType.Sell
       else if rule1 r c then TransactionType.Buy
       else t.type)) ∧
    (t.is_vault = true → (Row.to_transaction r (some t) c).is_vault = true) ∧
    ((rule1 r c = false ∧ rule2 r c = false ∧ rule3 r c = false ∧ rule4 r c = false) →
      Row.to_transaction r (some t) c =
        { t with is_vault := t.is_vault || strContains r.description "Vault" }) ∧
    ((rule1 r c = false ∧ rule2 r c = false ∧ rule3 r c = false ∧ rule4 r c = false ∧
        strContains r.description "Vault" = false) →
      Row.to_transaction r (some t) c = t) ∧
    (∀ older, (rule1 r c || rule2 r c) = true →
      (pairTxn older r c).date = r.started_date ∧
      (pairTxn older r c).paid_amount = r.amount + r.fee ∧
      (pairTxn older r c).paid_currency = c) ∧
    (∀ older, (rule3 r c || rule4 r c) = true →
      (pairTxn older r c).exchanged_amount = r.amount + r.fee ∧
      (pairTxn older r c).exchanged_currency = r.currency) ∧
    (∀ older, (rule1 r c || rule2 r c || rule3 r c || rule4 r c) = true →
      (pairTxn older r c).type =
        (if rule4 r c then TransactionType.Buy
         else if rule3 r c then TransactionType.Sell
         else if rule2 r c then TransactionType.Sell
         else TransactionType.Buy)) := by
  refine ⟨?_, ?_, ?_, ?_, ?_, ?_, ?_, ?_, ?_, ?_⟩
  · intro h; rw [to_transaction_char]; simp [h]
  · intro h; rw [to_transaction_char]; simp [h]
  · rw [to_transaction_char]
  · rw [to_transaction_char]
  · intro h; rw [to_transaction_char]; simp [h]
  · rintro ⟨h1, h2, h3, h4⟩
    rw [to_transaction_char]
    simp [h1, h2, h3, h4]
  · rintro ⟨h1, h2, h3, h4, h5⟩
    rw [to_transaction_char]
    simp [h1, h2, h3, h4, h5]
  · intro older h
    unfold pairTxn
    rw [to_transaction_char]
    simp [h]
  · intro older h
    unfold pairTxn
    rw [to_transaction_char]
    simp [h]
  · intro older h
    unfold pairTxn
    rw [to_transaction_char]
    cases h4 : rule4 r c
    · cases h3 : rule3 r c
      · cases h2 : rule2 r c
        · cases h1 : rule1 r c
          · rw [h1, h2, h3, h4] at h
            simp at h
          · simp [h1, h2, h3, h4]
        · simp [h2, h3, h4]
      · simp [h3, h4]
    · simp [h4]

/-- C10 witness: concrete instances discharging each hypothesis: the no-rule
leg `jrow` leaves a fresh accumulator unchanged, the Vault-only leg `vrow`
changes only `is_vault`, a set `is_vault` survives, and the newer leg
`c2row` (rules 1 and 3) overwrites the date, the paid and exchanged fields,
and the type. -/
theorem c10_witness :
    Row.to_transaction jrow (some Transaction.new) "BCH" = Transaction.new ∧
    (Row.to_transaction jrow
      (some { Transaction.new with is_vault := true }) "BCH").is_vault = true ∧
    (Row.to_transaction jrow (some Transaction.new) "BCH").exchanged_amount =
      Transaction.new.exchanged_amount ∧
    (Row.to_transaction jrow (some Transaction.new) "BCH").date = Transaction.new.date ∧
    Row.to_transaction vrow (some Transaction.new) "BCH" =
      { Transaction.new with
        is_vault := Transaction.new.is_vault || strContains vrow.description "Vault" } ∧
    (pairTxn jrow c2row "BCH").date = c2row.started_date ∧
    (pairTxn jrow c2row "BCH").paid_amount = c2row.amount + c2row.fee ∧
    (pairTxn jrow c2row "BCH").paid_currency = "BCH" ∧
    (pairTxn jrow c2row "BCH").exchanged_amount = c2row.amount + c2row.fee ∧
    (pairTxn jrow c2row "BCH").exchanged_currency = c2row.currency ∧
    (pairTxn jrow c2row "BCH").type = TransactionType.Sell :=
  ⟨(c10_frame_conditions jrow Transaction.new "BCH").2.2.2.2.2.2.1 (by decide),
    (c10_frame_conditions jrow
      { Transaction.new with is_vault := true } "BCH").2.2.2.2.1 (by decide),
    ((c10_frame_conditions jrow Transaction.new "BCH").1 (by decide)).1,
    ((c10_frame_conditions jrow Transaction.new "BCH").2.1 (by decide)).2.2,
    (c10_frame_conditions vrow Transaction.new "BCH").2.2.2.2.2.1 (by decide),
    ((c10_frame_conditions c2row Transaction.new "BCH").2.2.2.2.2.2.2.1 jrow
      (by decide)).1,
    ((c10_frame_conditions c2row Transaction.new "BCH").2.2.2.2.2.2.2.1 jrow
      (by decide)).2.1,
    ((c10_frame_conditions c2row Transaction.new "BCH").2.2.2.2.2.2.2.1 jrow
      (by decide)).2.2,
    ((c10_frame_conditions c2row Transaction.new "BCH").2.2.2.2.2.2.2.2.1 jrow
      (by decide)).1,
    ((c10_frame_conditions c2row Transaction.new "BCH").2.2.2.2.2.2.2.2.1 jrow
      (by decide)).2,
    by
      have h := (c10_frame_conditions c2row Transaction.new "BCH").2.2.2.2.2.2.2.2.2
        jrow (by decide)
      rw [h]
      decide⟩

/-- C4 counterexample: for the newest-first input `[rNew, rOld]` the single
emitted transaction carries the NEWER leg's date, not the older leg's: the
newer leg is classified second and its rule-1 `date` write wins. -/
theorem c4_counterexample :
    (toTransactionsCore [rNew, rOld] "BCH").length = 1 ∧
    ((toTransactionsCore [rNew, rOld] "BCH").head?.map Transaction.date) ≠
      some rOld.started_date ∧
    ((toTransactionsCore [rNew, rOld] "BCH").head?.map Transaction.date) =
      some rNew.started_date ∧
    rOld.started_date ≠ rNew.started_date := by
  decide

/-- C4 amended: the transaction of each adjacent pair carries the date of
the LAST-classified leg that fires rule 1 or 2 — the newer leg's date when
the newer leg fires a paid-side rule, else the older leg's date when that
leg fires one, else the accumulator default; it equals the older leg's
date only when the newer leg fires neither rule 1 nor rule 2. -/
theorem c4_amended_date_last_write (rows : List Row) (older newer : Row) (c : Currency) :
    toTransactionsCore rows c =
      ((chunkPairs rows.reverse).map fun p => pairTxn p.1 p.2 c) ∧
    (pairTxn older newer c).date =
      (if rule1 newer c || rule2 newer c then newer.started_date
       else if rule1 older c || rule2 older c then older.started_date
       else Transaction.new.date) := by
  refine ⟨toTransactionsCore_eq_chunkMap rows c, ?_⟩
  unfold pairTxn
  rw [to_transaction_none, to_transaction_char, to_transaction_char]

/-- C7: the currency-scoped filter keeps exactly the rows whose kind is
Exchange and whose currency equals the target or whose description contains
the target code; kept rows form a sublist (same relative order) of the
input, and dropped rows cause no error. -/
theorem c7_currency_scoped_filter (rows : List Row) (c : Currency) :
    read_exchanges_in_currency rows c =
      rows.filter (fun t => t.type == RowType.Exchange &&
        (t.currency == c || strContains t.description c)) ∧
    (∀ t, t ∈ read_exchanges_in_currency rows c ↔
      (t ∈ rows ∧ t.type = RowType.Exchange ∧
        (t.currency = c ∨ strContains t.description c = true))) ∧
    (read_exchanges_in_currency rows c).Sublist rows := by
  have hf : read_exchanges_in_currency rows c =
      rows.filter (fun t => t.type == RowType.Exchange &&
        (t.currency == c || strContains t.description c)) := by
    unfold read_exchanges_in_currency
    rw [List.filter_filter]
    exact List.filter_congr fun a _ => by rw [Bool.and_comm]
  refine ⟨hf, fun t => ?_, ?_⟩
  · rw [hf, List.mem_filter]
    simp [and_assoc]
  · rw [hf]
    exact List.filter_sublist rows

/-- C8: `to_transactions` is total on well-typed input and never produces an
error value: it always returns `Ok` of the folded transaction list. -/
theorem c8_never_fails (rows : List Row) (c : Currency) :
    to_transactions rows c = Except.ok (toTransactionsCore rows c) ∧
    (to_transactions rows c).isOk = true :=
  ⟨rfl, rfl⟩

lemma chunkPairs_mem {α : Type} :
    ∀ (l : List α) (p : α × α), p ∈ chunkPairs l → p.1 ∈ l ∧ p.2 ∈ l := by
  refine twoStepInd ?_ ?_ ?_
  · intro p hp; simp [chunkPairs] at hp
  · intro a p hp; simp [chunkPairs] at hp
  · intro a b l ih p hp
    simp only [chunkPairs, List.mem_cons] at hp
    rcases hp with rfl | hp
    · simp
    · rcases ih p hp with ⟨h1, h2⟩
      exact ⟨by simp [h1], by simp [h2]⟩

lemma chunkPairs_pairwise {α : Type} {R : α → α → Prop} :
    ∀ (l : List α), List.Pairwise R l →
      List.Pairwise
        (fun p q : α × α => R p.1 q.1 ∧ R p.1 q.2 ∧ R p.2 q.1 ∧ R p.2 q.2)
        (chunkPairs l) := by
  refine twoStepInd ?_ ?_ ?_
  · intro _; simp [chunkPairs]
  · intro a _; simp [chunkPairs]
  · intro a b l ih h
    rw [List.pairwise_cons] at h
    obtain ⟨ha, h⟩ := h
    rw [List.pairwise_cons] at h
    obtain ⟨hb, hl⟩ := h
    simp only [chunkPairs]
    rw [List.pairwise_cons]
    refine ⟨?_, ih hl⟩
    intro q hq
    obtain ⟨hq1, hq2⟩ := chunkPairs_mem l q hq
    exact ⟨ha _ (List.mem_cons_of_mem _ hq1), ha _ (List.mem_cons_of_mem _ hq2),
      hb _ hq1, hb _ hq2⟩

lemma pairTxn_date (older newer : Row) (c : Currency) :
    (pairTxn older newer c).date =
      if rule1 newer c || rule2 newer c then newer.started_date
      else if rule1 older c || rule2 older c then older.started_date
      else Transaction.new.date := by
  unfold pairTxn
  rw [to_transaction_none, to_transaction_char, to_transaction_char]

lemma pairTxn_date_cases (older newer : Row) (c : Currency)
    (h : ((rule1 older c || rule2 older c) || (rule1 newer c || rule2 newer c)) = true) :
    (pairTxn older newer c).date = older.started_date ∨
    (pairTxn older newer c).date = newer.started_date := by
  rw [pairTxn_date]
  cases hn : (rule1 newer c || rule2 newer c) with
  | true => simp
  | false =>
    cases ho : (rule1 older c || rule2 older c) with
    | true => simp
    | false => rw [ho, hn] at h; simp at h

/-- C5 counterexample: the input `[j1, j2, m3, jrow]` is ordered newest-first
by date, yet the emitted dates are `["2021-06-01 00:00:00", ""]` — the second
pair fires no rule, its transaction keeps the default date, and the output is
not in non-decreasing chronological order. -/
theorem c5_counterexample :
    List.Pairwise (fun a b : Row => chronoLe b.started_date a.started_date = true)
      [j1, j2, m3, jrow] ∧
    ¬ List.Pairwise (fun s t : String => chronoLe s t = true)
      ((toTransactionsCore [j1, j2, m3, jrow] "BCH").map fun t => t.date) := by
  decide

/-- C5 amended: if the input rows are ordered newest-first by date and every
adjacent pair of the reversed input contains at least one leg firing a
date-writing rule (rule 1 or 2), then the output transactions — one per
adjacent pair of the reversed input, in that order, the reversal being the
engine's first step — carry non-decreasing dates. -/
theorem c5_amended_chronological (rows : List Row) (c : Currency)
    (hsort : List.Pairwise
      (fun a b : Row => chronoLe b.started_date a.started_date = true) rows)
    (hfire : ∀ p ∈ chunkPairs rows.reverse,
      ((rule1 p.1 c || rule2 p.1 c) || (rule1 p.2 c || rule2 p.2 c)) = true) :
    toTransactionsCore rows c =
      ((chunkPairs rows.reverse).map fun p => pairTxn p.1 p.2 c) ∧
    List.Pairwise (fun s t : String => chronoLe s t = true)
      ((toTransactionsCore rows c).map fun t => t.date) := by
  refine ⟨toTransactionsCore_eq_chunkMap rows c, ?_⟩
  rw [toTransactionsCore_eq_chunkMap, List.map_map, List.pairwise_map]
  have hrev : List.Pairwise
      (fun a b : Row => chronoLe a.started_date b.started_date = true) rows.reverse :=
    List.pairwise_reverse.mpr hsort
  have hS := chunkPairs_pairwise rows.reverse hrev
  refine hS.imp_of_mem ?_
  intro p q hp hq hR
  have hdp := pairTxn_date_cases p.1 p.2 c (hfire p hp)
  have hdq := pairTxn_date_cases q.1 q.2 c (hfire q hq)
  simp only [Function.comp]
  rcases hdp with h1 | h1 <;> rcases hdq with h2 | h2 <;> rw [h1, h2]
  · exact hR.1
  · exact hR.2.1
  · exact hR.2.2.1
  · exact hR.2.2.2

/-- C5 witness: the two-row newest-first input `[rNew, rOld]` satisfies both
hypotheses and yields a single transaction, trivially in order. -/
theorem c5_witness :
    List.Pairwise (fun a b : Row => chronoLe b.started_date a.started_date = true)
      [rNew, rOld] ∧
    List.Pairwise (fun s t : String => chronoLe s t = true)
      ((toTransactionsCore [rNew, rOld] "BCH").map fun t => t.date) :=
  ⟨by decide, (c5_amended_chronological [rNew, rOld] "BCH" (by decide) (by decide)).2⟩

lemma state_eq_completed : ∀ s : State, s = State.Completed := by
  intro s; cases s; rfl

/-- C9: the parser stage is a silent filter: every row it hands to the core
came from a record that passed full deserialization (and, the `State` enum
having only `Completed`, carries that state); a record with a non-Completed
state or a non-numeric amount or fee fails and is dropped without error. -/
theorem c9_parser_silently_drops (records : List RawRecord) :
    (∀ r ∈ deserialize_from_path records,
      r.state = State.Completed ∧ ∃ rec ∈ records, parseRow rec = some r) ∧
    (∀ rec : RawRecord, rec.state ≠ "Completed" → parseRow rec = none) ∧
    (∀ rec : RawRecord, parseDecimal rec.amount = none → parseRow rec = none) ∧
    (∀ rec : RawRecord, parseDecimal rec.fee = none → parseRow rec = none) ∧
    (∀ (rec : RawRecord) (rest : List RawRecord), parseRow rec = none →
      deserialize_from_path (rec :: rest) = deserialize_from_path rest) := by
  refine ⟨?_, ?_, ?_, ?_, ?_⟩
  · intro r hr
    rw [deserialize_from_path, List.mem_filterMap] at hr
    obtain ⟨rec, hrec, hp⟩ := hr
    exact ⟨state_eq_completed r.state, rec, hrec, hp⟩
  · intro rec h
    have hps : parseState rec.state = none := by
      simp [parseState, h]
    unfold parseRow
    cases parseRowType rec.type <;> cases parseDecimal rec.amount <;>
      cases parseDecimal rec.fee <;> cases parseDecimal rec.original_amount <;>
        cases parseOptDecimal rec.settled_amount <;> simp [hps]
  · intro rec h
    unfold parseRow
    cases parseRowType rec.type <;> simp [h]
  · intro rec h
    unfold parseRow
    cases parseRowType rec.type <;> cases parseDecimal rec.amount <;> simp [h]
  · intro rec rest h
    unfold deserialize_from_path
    rw [List.filterMap_cons, h]

/-- C9 witness: the fixture record parses to its row (with state Completed),
a "Pending" record and a non-numeric amount both fail, and a failing record
is dropped from the output with no error. -/
theorem c9_witness :
    (goodRow.state = State.Completed ∧
      ∃ rec ∈ [goodRec], parseRow rec = some goodRow) ∧
    parseRow badStateRec = none ∧
    parseRow badAmountRec = none ∧
    deserialize_from_path [badStateRec, badAmountRec] =
      deserialize_from_path [badAmountRec] :=
  ⟨(c9_parser_silently_drops [goodRec]).1 goodRow (by with_unfolding_all decide),
    (c9_parser_silently_drops []).2.1 badStateRec (by decide),
    (c9_parser_silently_drops []).2.2.1 badAmountRec (by decide),
    (c9_parser_silently_drops []).2.2.2.2 badStateRec [badAmountRec]
      ((c9_parser_silently_drops []).2.1 badStateRec (by decide))⟩
